import Mathlib

/-!
# Verification of the safe-sight risk-scoring core

Shallow embedding of the detection-to-risk pipeline of this repository:
* geometry kernel (`iou`, `getCenter`, `distance`) from `src/utils/riskLogic.ts`,
* frame risk evaluator (`computeFrameRisk`) from `src/utils/riskLogic.ts`,
* video aggregator (`aggregateVideoRisk`) from `src/utils/riskLogic.ts`,
* violation summarizer (`generateViolations`) from `src/utils/riskLogic.ts`,
* analysis orchestrator (`analyzeVideo`) from `src/types/index.ts`.

JavaScript `number` values are modelled as rationals (`ℚ`); all arithmetic
appearing in the pipeline is exact on the inputs considered, so `ℚ` is a
faithful model of the algorithmic content.  `Math.round` is modelled by
`jsRound` (round half toward `+∞`, exactly the ECMAScript semantics).
The detection source (`simulateYoloDetection`/`getScenarioForFrame` from
`detection.ts`, which only the orchestrator consumes) is modelled as an
opaque function `ℕ → List Detection`, matching the spec's detection-source
interface `next(frameIndex) -> list<Detection>`; every orchestrator theorem
is proved for an arbitrary such source.
-/

namespace SafeSight

/-- A bounding box `[x1, y1, x2, y2]` in frame-pixel coordinates,
as used throughout `riskLogic.ts`. -/
structure Box where
  x1 : ℚ
  y1 : ℚ
  x2 : ℚ
  y2 : ℚ
deriving DecidableEq, Repr

/-- The intersection area computed inside `iou` (`riskLogic.ts` lines 12-19):
`interW * interH` with `interW = max(0, xB - xA)`, `interH = max(0, yB - yA)`. -/
def interArea (boxA boxB : Box) : ℚ :=
  let xA := max boxA.x1 boxB.x1
  let yA := max boxA.y1 boxB.y1
  let xB := min boxA.x2 boxB.x2
  let yB := min boxA.y2 boxB.y2
  max 0 (xB - xA) * max 0 (yB - yA)

/-- Area of a single box, `(x2 - x1) * (y2 - y1)` (`riskLogic.ts` lines 23-24). -/
def boxArea (b : Box) : ℚ := (b.x2 - b.x1) * (b.y2 - b.y1)

/-- `iou` from `riskLogic.ts` lines 11-27: intersection over union, with the
early `if (interArea === 0) return 0` guard before the division. -/
def iou (boxA boxB : Box) : ℚ :=
  if interArea boxA boxB = 0 then 0
  else interArea boxA boxB / (boxArea boxA + boxArea boxB - interArea boxA boxB)

/-- Two boxes are disjoint (non-overlapping) when their x-projections or
y-projections do not overlap with positive length. -/
def disjointBoxes (a b : Box) : Prop :=
  a.x2 ≤ b.x1 ∨ b.x2 ≤ a.x1 ∨ a.y2 ≤ b.y1 ∨ b.y2 ≤ a.y1

/-- The `let`-free normal form of `interArea`. -/
lemma interArea_def (a b : Box) : interArea a b =
    max 0 (min a.x2 b.x2 - max a.x1 b.x1) * max 0 (min a.y2 b.y2 - max a.y1 b.y1) := rfl

lemma interArea_nonneg (a b : Box) : 0 ≤ interArea a b := by
  rw [interArea_def]
  exact mul_nonneg (le_max_left _ _) (le_max_left _ _)

lemma interArea_comm (a b : Box) : interArea a b = interArea b a := by
  rw [interArea_def, interArea_def]
  rw [max_comm a.x1 b.x1, max_comm a.y1 b.y1, min_comm a.x2 b.x2, min_comm a.y2 b.y2]

/-- When the intersection area is nonzero, both side lengths of the
intersection rectangle are positive and the `max 0` guards are inactive. -/
lemma interArea_pos_facts (a b : Box) (h : interArea a b ≠ 0) :
    0 < min a.x2 b.x2 - max a.x1 b.x1 ∧ 0 < min a.y2 b.y2 - max a.y1 b.y1 ∧
    interArea a b = (min a.x2 b.x2 - max a.x1 b.x1) * (min a.y2 b.y2 - max a.y1 b.y1) := by
  rw [interArea_def] at h ⊢
  rcases le_or_lt (min a.x2 b.x2 - max a.x1 b.x1) 0 with hx | hx
  · exfalso; apply h
    rw [max_eq_left hx, zero_mul]
  rcases le_or_lt (min a.y2 b.y2 - max a.y1 b.y1) 0 with hy | hy
  · exfalso; apply h
    rw [max_eq_left hy, mul_zero]
  refine ⟨hx, hy, ?_⟩
  rw [max_eq_right hx.le, max_eq_right hy.le]

/-- A nonzero intersection area never exceeds the area of either box. -/
lemma interArea_le_boxArea_left (a b : Box) (h : interArea a b ≠ 0) :
    interArea a b ≤ boxArea a := by
  obtain ⟨hx, hy, heq⟩ := interArea_pos_facts a b h
  rw [heq]
  unfold boxArea
  have h1 : min a.x2 b.x2 - max a.x1 b.x1 ≤ a.x2 - a.x1 :=
    sub_le_sub (min_le_left _ _) (le_max_left _ _)
  have h2 : min a.y2 b.y2 - max a.y1 b.y1 ≤ a.y2 - a.y1 :=
    sub_le_sub (min_le_left _ _) (le_max_left _ _)
  exact mul_le_mul h1 h2 hy.le (lt_of_lt_of_le hx h1).le

lemma interArea_le_boxArea_right (a b : Box) (h : interArea a b ≠ 0) :
    interArea a b ≤ boxArea b := by
  rw [interArea_comm] at h ⊢
  exact interArea_le_boxArea_left b a h

/-- The union-area denominator of `iou` is positive whenever the division
is actually reached (nonzero intersection). -/
lemma iou_denom_pos (a b : Box) (h : interArea a b ≠ 0) :
    0 < boxArea a + boxArea b - interArea a b := by
  have h1 := interArea_le_boxArea_left a b h
  have h2 := interArea_le_boxArea_right a b h
  have h3 : 0 < interArea a b := lt_of_le_of_ne (interArea_nonneg a b) (Ne.symm h)
  linarith

lemma iou_nonneg (a b : Box) : 0 ≤ iou a b := by
  unfold iou
  split
  · exact le_refl 0
  · next h =>
    exact div_nonneg (interArea_nonneg a b) (iou_denom_pos a b h).le

lemma iou_le_one (a b : Box) : iou a b ≤ 1 := by
  unfold iou
  split
  · norm_num
  · next h =>
    rw [div_le_one (iou_denom_pos a b h)]
    have h2 := interArea_le_boxArea_right a b h
    have h3 : 0 < interArea a b := lt_of_le_of_ne (interArea_nonneg a b) (Ne.symm h)
    have h1 := interArea_le_boxArea_left a b h
    linarith

lemma iou_comm (a b : Box) : iou a b = iou b a := by
  unfold iou
  rw [interArea_comm a b, add_comm (boxArea a) (boxArea b)]

lemma iou_self (a : Box) (hx : a.x1 < a.x2) (hy : a.y1 < a.y2) : iou a a = 1 := by
  have hinter : interArea a a = boxArea a := by
    rw [interArea_def]
    unfold boxArea
    rw [max_self, max_self, min_self, min_self,
      max_eq_right (by linarith : (0:ℚ) ≤ a.x2 - a.x1),
      max_eq_right (by linarith : (0:ℚ) ≤ a.y2 - a.y1)]
  have hpos : 0 < boxArea a := by
    unfold boxArea
    exact mul_pos (by linarith) (by linarith)
  unfold iou
  rw [hinter, if_neg hpos.ne']
  rw [show boxArea a + boxArea a - boxArea a = boxArea a by ring]
  exact div_self hpos.ne'

lemma iou_of_disjoint (a b : Box) (h : disjointBoxes a b) : iou a b = 0 := by
  have hzero : interArea a b = 0 := by
    rw [interArea_def]
    rcases h with h | h | h | h
    · apply mul_eq_zero_of_left
      apply max_eq_left
      have : min a.x2 b.x2 ≤ max a.x1 b.x1 :=
        le_trans (min_le_left _ _) (le_trans h (le_max_right _ _))
      linarith
    · apply mul_eq_zero_of_left
      apply max_eq_left
      have : min a.x2 b.x2 ≤ max a.x1 b.x1 :=
        le_trans (min_le_right _ _) (le_trans h (le_max_left _ _))
      linarith
    · apply mul_eq_zero_of_right
      apply max_eq_left
      have : min a.y2 b.y2 ≤ max a.y1 b.y1 :=
        le_trans (min_le_left _ _) (le_trans h (le_max_right _ _))
      linarith
    · apply mul_eq_zero_of_right
      apply max_eq_left
      have : min a.y2 b.y2 ≤ max a.y1 b.y1 :=
        le_trans (min_le_right _ _) (le_trans h (le_max_left _ _))
      linarith
  unfold iou
  rw [if_pos hzero]

/-! ## Data model (`src/types/index.ts`) -/

/-- `Detection` from `src/types/index.ts`: class label, confidence,
bounding box, numeric class id, and pre-computed center point. -/
structure Detection where
  className : String
  confidence : ℚ
  bbox : Box
  classId : ℤ
  center : ℚ × ℚ
deriving DecidableEq, Repr

/-- `VEHICLE_CLASSES` from `src/types/index.ts`. -/
def VEHICLE_CLASSES : List String := ["car", "motorcycle", "bus", "truck", "bicycle"]

/-- `FrameAnalysis` from `src/types/index.ts`. -/
structure FrameAnalysis where
  frameIndex : ℕ
  score : ℚ
  detections : List Detection
  vehicleCount : ℕ
  personCount : ℕ
  overlaps : ℕ
  proximityRisks : ℕ
deriving DecidableEq, Repr

/-- `getCenter` from `riskLogic.ts` lines 32-35. -/
def getCenter (box : Box) : ℚ × ℚ := ((box.x1 + box.x2) / 2, (box.y1 + box.y2) / 2)

/-- Squared Euclidean distance between two points; `distance` in
`riskLogic.ts` lines 40-42 is its square root. -/
def distSq (p q : ℚ × ℚ) : ℚ := (p.1 - q.1) ^ 2 + (p.2 - q.2) ^ 2

/-- Decides `Math.sqrt s < t` without leaving `ℚ`: for `0 ≤ s`,
`Real.sqrt s < t ↔ 0 < t ∧ s < t * t`; see `sqrtLt_correct`. -/
def sqrtLt (s t : ℚ) : Bool := decide (0 < t) && decide (s < t * t)

/-- Justification that `sqrtLt` decides the square-root comparison the
source performs with `Math.sqrt`. -/
lemma sqrtLt_correct (s t : ℚ) (hs : 0 ≤ s) :
    sqrtLt s t = true ↔ Real.sqrt (s : ℝ) < (t : ℝ) := by
  unfold sqrtLt
  simp only [Bool.and_eq_true, decide_eq_true_eq]
  constructor
  · rintro ⟨ht, hlt⟩
    have ht' : (0 : ℝ) < (t : ℝ) := by exact_mod_cast ht
    rw [show ((t : ℝ)) = Real.sqrt ((t : ℝ) ^ 2) by
      rw [Real.sqrt_sq ht'.le]]
    apply Real.sqrt_lt_sqrt (by exact_mod_cast hs)
    have hlt' : (s : ℝ) < (t : ℝ) * (t : ℝ) := by exact_mod_cast hlt
    nlinarith [hlt']
  · intro h
    have ht' : (0 : ℝ) < (t : ℝ) := lt_of_le_of_lt (Real.sqrt_nonneg _) h
    have ht : 0 < t := by exact_mod_cast ht'
    refine ⟨ht, ?_⟩
    have := (Real.sqrt_lt' ht').mp h
    have : (s : ℝ) < (t : ℝ) * (t : ℝ) := by nlinarith [this]
    exact_mod_cast this

/-- The vehicle-vehicle overlap double loop of `computeFrameRisk`
(`riskLogic.ts` lines 65-72): the number of index pairs `i < j` with
`iou(vehicles[i].bbox, vehicles[j].bbox) > 0.1`. -/
def countOverlapPairs : List Detection → ℕ
  | [] => 0
  | v :: rest =>
      rest.countP (fun u => decide ((0.1 : ℚ) < iou v.bbox u.bbox)) + countOverlapPairs rest

/-- The proximity test of `riskLogic.ts` line 82:
`cy_p > frameHeight * 0.5 && dist < frameWidth * 0.2`, where
`dist = Math.sqrt (distSq ..)` is compared via `sqrtLt`. -/
def proxCheck (v p : Detection) (frameWidth frameHeight : ℚ) : Bool :=
  decide (frameHeight * 0.5 < (getCenter p.bbox).2) &&
    sqrtLt (distSq (getCenter v.bbox) (getCenter p.bbox)) (frameWidth * 0.2)

/-- The vehicle-person proximity double loop of `computeFrameRisk`
(`riskLogic.ts` lines 75-87). -/
def countProximity (vehicles persons : List Detection) (frameWidth frameHeight : ℚ) : ℕ :=
  (vehicles.map (fun v => persons.countP (fun p => proxCheck v p frameWidth frameHeight))).sum

/-- `computeFrameRisk` from `riskLogic.ts` lines 48-101.  The imperative
loops add `20` exactly once per counted overlap pair and `30` exactly once
per counted proximity pair, so the accumulated score is
`3*|vehicles| + 5*|persons| + 20*overlaps + 30*proximityRisks`,
then clamped by `Math.max(0, Math.min(score, 100))`. -/
def computeFrameRisk (detections : List Detection) (frameWidth frameHeight : ℚ) :
    FrameAnalysis :=
  let vehicles := detections.filter (fun d => VEHICLE_CLASSES.contains d.className)
  let persons := detections.filter (fun d => d.className == "person")
  let overlaps := countOverlapPairs vehicles
  let proximityRisks := countProximity vehicles persons frameWidth frameHeight
  let score : ℚ := 3 * vehicles.length + 5 * persons.length
      + 20 * overlaps + 30 * proximityRisks
  { frameIndex := 0
    score := max 0 (min score 100)
    detections := detections
    vehicleCount := vehicles.length
    personCount := persons.length
    overlaps := overlaps
    proximityRisks := proximityRisks }

/-! ## Claim C4 and claim C10: algebraic and safety properties of `iou` -/

/-- C4: `iou a a = 1` for every box with positive width and height; `iou`
is 0 on disjoint boxes; `iou` is symmetric; `iou` never returns a negative
value; an intersection area of exactly 0 yields IoU 0 without the ratio
being computed, and whenever the ratio is computed its denominator is
positive, so no division by zero occurs. -/
theorem iou_algebraic_props :
    (∀ a : Box, a.x1 < a.x2 → a.y1 < a.y2 → iou a a = 1) ∧
    (∀ a b : Box, disjointBoxes a b → iou a b = 0) ∧
    (∀ a b : Box, iou a b = iou b a) ∧
    (∀ a b : Box, 0 ≤ iou a b) ∧
    (∀ a b : Box, interArea a b = 0 → iou a b = 0) ∧
    (∀ a b : Box, interArea a b ≠ 0 → 0 < boxArea a + boxArea b - interArea a b) :=
  ⟨iou_self, iou_of_disjoint, iou_comm, iou_nonneg,
   fun _ _ h => by unfold iou; rw [if_pos h], iou_denom_pos⟩

/-- Witness for C4 at concrete boxes. -/
theorem iou_algebraic_props_witness :
    iou ⟨0, 0, 2, 2⟩ ⟨0, 0, 2, 2⟩ = 1 ∧ iou ⟨0, 0, 1, 1⟩ ⟨5, 5, 6, 6⟩ = 0 :=
  ⟨iou_algebraic_props.1 ⟨0, 0, 2, 2⟩ (by norm_num) (by norm_num),
   iou_algebraic_props.2.1 ⟨0, 0, 1, 1⟩ ⟨5, 5, 6, 6⟩ (by left; norm_num)⟩

/-- C10: for well-formed boxes (zero width or height allowed) `iou` is
total with result in `[0, 1]`: a zero intersection area returns 0 before
any division, and otherwise the denominator is at least the intersection
area (so the ratio never exceeds 1) and positive (so no division by zero).
A degenerate zero-area box paired with itself yields 0, not 1. -/
theorem iou_total_bounded :
    (∀ a b : Box, a.x1 ≤ a.x2 → a.y1 ≤ a.y2 → b.x1 ≤ b.x2 → b.y1 ≤ b.y2 →
      0 ≤ iou a b ∧ iou a b ≤ 1 ∧ (interArea a b = 0 → iou a b = 0) ∧
        (interArea a b ≠ 0 →
          interArea a b ≤ boxArea a + boxArea b - interArea a b ∧
          0 < boxArea a + boxArea b - interArea a b)) ∧
    (∀ a : Box, boxArea a = 0 → iou a a = 0) := by
  constructor
  · intro a b _ _ _ _
    refine ⟨iou_nonneg a b, iou_le_one a b,
      fun h => by unfold iou; rw [if_pos h],
      fun h => ⟨?_, iou_denom_pos a b h⟩⟩
    have h1 := interArea_le_boxArea_left a b h
    have h2 := interArea_le_boxArea_right a b h
    linarith
  · intro a h
    have hzero : interArea a a = 0 := by
      rw [interArea_def, min_self, min_self, max_self, max_self]
      unfold boxArea at h
      rcases mul_eq_zero.mp h with h0 | h0 <;> simp [h0]
    unfold iou
    rw [if_pos hzero]

/-- Witness for C10 at concrete boxes, including a degenerate zero-width box. -/
theorem iou_total_bounded_witness :
    (0 ≤ iou ⟨0, 0, 4, 4⟩ ⟨2, 2, 6, 6⟩ ∧ iou ⟨0, 0, 4, 4⟩ ⟨2, 2, 6, 6⟩ ≤ 1) ∧
    iou ⟨1, 1, 1, 3⟩ ⟨1, 1, 1, 3⟩ = 0 :=
  ⟨⟨(iou_total_bounded.1 ⟨0, 0, 4, 4⟩ ⟨2, 2, 6, 6⟩
        (by norm_num) (by norm_num) (by norm_num) (by norm_num)).1,
    (iou_total_bounded.1 ⟨0, 0, 4, 4⟩ ⟨2, 2, 6, 6⟩
        (by norm_num) (by norm_num) (by norm_num) (by norm_num)).2.1⟩,
   iou_total_bounded.2 ⟨1, 1, 1, 3⟩ (by norm_num [boxArea])⟩

/-! ## Claim C1: the frame risk evaluator matches the reference algorithm -/

/-- Overlap-pair count as the specification words it (spec §4.2 step 3):
one count for each unordered pair of distinct vehicles whose IoU exceeds
`0.1 = 1/10`. -/
def specOverlapPairs : List Detection → ℕ
  | [] => 0
  | v :: rest =>
      (rest.filter (fun u => decide ((1 : ℚ) / 10 < iou v.bbox u.bbox))).length +
        specOverlapPairs rest

/-- Proximity test as the specification words it (spec §4.2 step 4):
person center strictly below half height (`center.y > height/2`) and
Euclidean center distance less than 20% of the frame width, expressed on
squares. -/
def specProxPair (v p : Detection) (w h : ℚ) : Bool :=
  decide (h / 2 < (getCenter p.bbox).2) &&
    decide (distSq (getCenter v.bbox) (getCenter p.bbox) < (w / 5) ^ 2)

/-- Proximity-pair count as the specification words it: one count for
every vehicle-person pair satisfying `specProxPair`. -/
def specProxCount (vehicles persons : List Detection) (w h : ℚ) : ℕ :=
  (vehicles.map (fun v => (persons.filter (fun p => specProxPair v p w h)).length)).sum

/-- The reference frame-risk algorithm exactly as the specification
states it (spec §4.2): base score `3*vehicles + 5*persons`, plus 20 per
overlapping vehicle pair, plus 30 per vehicle-person proximity pair,
clamped to `[0, 100]`. -/
def computeFrameRiskSpec (detections : List Detection) (w h : ℚ) : FrameAnalysis :=
  let vehicles := detections.filter (fun d => VEHICLE_CLASSES.contains d.className)
  let persons := detections.filter (fun d => d.className == "person")
  let ov := specOverlapPairs vehicles
  let px := specProxCount vehicles persons w h
  let base : ℚ := 3 * vehicles.length + 5 * persons.length
  { frameIndex := 0
    score := min 100 (max 0 (base + 20 * ov + 30 * px))
    detections := detections
    vehicleCount := vehicles.length
    personCount := persons.length
    overlaps := ov
    proximityRisks := px }

lemma countOverlapPairs_eq_spec (l : List Detection) :
    countOverlapPairs l = specOverlapPairs l := by
  induction l with
  | nil => rfl
  | cons v rest ih =>
    unfold countOverlapPairs specOverlapPairs
    rw [ih, List.countP_eq_length_filter]
    simp only [(by norm_num : (0.1 : ℚ) = 1 / 10)]

lemma proxCheck_eq_spec (v p : Detection) (w h : ℚ) (hw : 0 < w) :
    proxCheck v p w h = specProxPair v p w h := by
  unfold proxCheck specProxPair sqrtLt
  have e1 : h * (0.5 : ℚ) = h / 2 := by
    rw [show (0.5 : ℚ) = 1 / 2 by norm_num]; ring
  have e2 : w * (0.2 : ℚ) * (w * (0.2 : ℚ)) = (w / 5) ^ 2 := by
    rw [show (0.2 : ℚ) = 1 / 5 by norm_num]; ring
  have e3 : (0 : ℚ) < w * 0.2 := mul_pos hw (by norm_num)
  rw [e1, e2, decide_eq_true e3, Bool.true_and]

lemma countProximity_eq_spec (vehicles persons : List Detection) (w h : ℚ)
    (hw : 0 < w) :
    countProximity vehicles persons w h = specProxCount vehicles persons w h := by
  unfold countProximity specProxCount
  have hfun : (fun v => persons.countP (fun p => proxCheck v p w h))
      = (fun v => (persons.filter (fun p => specProxPair v p w h)).length) := by
    funext v
    rw [List.countP_eq_length_filter]
    have hpred : (fun p => proxCheck v p w h) = (fun p => specProxPair v p w h) :=
      funext (fun p => proxCheck_eq_spec v p w h hw)
    rw [hpred]
  rw [hfun]

/-- Clamping from below then above agrees with clamping from above then
below (the source writes `Math.max(0, Math.min(score, 100))`, the spec
says "clamp to [0, 100]"). -/
lemma clamp_comm (s : ℚ) : max 0 (min s 100) = min 100 (max 0 s) := by
  rw [max_min_distrib_left, show max (0 : ℚ) 100 = 100 by norm_num, min_comm]

lemma computeFrameRisk_eq_spec (dets : List Detection) (w h : ℚ) (hw : 0 < w) :
    computeFrameRisk dets w h = computeFrameRiskSpec dets w h := by
  have hov := countOverlapPairs_eq_spec
    (dets.filter (fun d => VEHICLE_CLASSES.contains d.className))
  have hpx := countProximity_eq_spec
    (dets.filter (fun d => VEHICLE_CLASSES.contains d.className))
    (dets.filter (fun d => d.className == "person")) w h hw
  simp only [computeFrameRisk, computeFrameRiskSpec, hov, hpx, clamp_comm]

/-- Example detection: a car box `[0, 0, 20, 10]`. -/
def exCarA : Detection := ⟨"car", 9 / 10, ⟨0, 0, 20, 10⟩, 2, (10, 5)⟩

/-- Example detection: a car box `[0, 0, 3, 10]`; its IoU with `exCarA`
is exactly `3/20 = 0.15`. -/
def exCarB : Detection := ⟨"car", 9 / 10, ⟨0, 0, 3, 10⟩, 2, (3 / 2, 5)⟩

/-- C1: for every detection list and positive frame dimensions,
`computeFrameRisk` returns exactly the result of the reference algorithm
(`computeFrameRiskSpec`); a frame with exactly two vehicle boxes of IoU
`0.15` and no other detections yields score 26 and overlap count 1; the
empty detection list yields score 0 and all four counts 0. -/
theorem computeFrameRisk_matches_reference :
    (∀ (dets : List Detection) (w h : ℚ), 0 < w → 0 < h →
        computeFrameRisk dets w h = computeFrameRiskSpec dets w h) ∧
    (iou ⟨0, 0, 20, 10⟩ ⟨0, 0, 3, 10⟩ = 3 / 20 ∧
      (computeFrameRisk [exCarA, exCarB] 1920 1080).score = 26 ∧
      (computeFrameRisk [exCarA, exCarB] 1920 1080).overlaps = 1 ∧
      (computeFrameRisk [exCarA, exCarB] 1920 1080).proximityRisks = 0) ∧
    (∀ w h : ℚ, computeFrameRisk [] w h =
      { frameIndex := 0, score := 0, detections := [], vehicleCount := 0,
        personCount := 0, overlaps := 0, proximityRisks := 0 }) := by
  refine ⟨fun dets w h hw _ => computeFrameRisk_eq_spec dets w h hw,
    ⟨?_, ?_, ?_, ?_⟩, ?_⟩
  · norm_num [iou, interArea_def, boxArea]
  · simp [computeFrameRisk, exCarA, exCarB, VEHICLE_CLASSES, countOverlapPairs,
      countProximity, proxCheck, getCenter, distSq, sqrtLt, List.countP_cons]
    norm_num [iou, interArea_def, boxArea, min_def, max_def]
  · simp [computeFrameRisk, exCarA, exCarB, VEHICLE_CLASSES, countOverlapPairs,
      countProximity, proxCheck, getCenter, distSq, sqrtLt, List.countP_cons]
    norm_num [iou, interArea_def, boxArea, min_def, max_def]
  · simp [computeFrameRisk, exCarA, exCarB, VEHICLE_CLASSES, countOverlapPairs,
      countProximity, proxCheck, getCenter, distSq, sqrtLt, List.countP_cons]
  · intro w h
    simp [computeFrameRisk, countOverlapPairs, countProximity]

/-- Witness for C1 applying the refinement at concrete inputs. -/
theorem computeFrameRisk_matches_reference_witness :
    computeFrameRisk [exCarA, exCarB] 1920 1080
      = computeFrameRiskSpec [exCarA, exCarB] 1920 1080 :=
  computeFrameRisk_matches_reference.1 [exCarA, exCarB] 1920 1080
    (by norm_num) (by norm_num)

/-! ## Video aggregator (`riskLogic.ts` lines 107-128) -/

/-- The four risk tiers from `riskLogic.ts` / `src/types/index.ts`. -/
inductive RiskLevel
  | LOW
  | MEDIUM
  | HIGH
  | CRITICAL
deriving DecidableEq, Repr

/-- ECMAScript `Math.round`: round half toward positive infinity. -/
def jsRound (q : ℚ) : ℤ := ⌊q + 1 / 2⌋

/-- The result record of `aggregateVideoRisk`. -/
structure AggResult where
  riskLevel : RiskLevel
  riskScore : ℤ
deriving DecidableEq, Repr

/-- `aggregateVideoRisk` from `riskLogic.ts` lines 107-128: empty input
yields `(LOW, 0)`; otherwise the mean of the frame scores is bucketed by
the `< 20 / < 50 / < 75` if-chain and rounded with `Math.round`. -/
def aggregateVideoRisk (frameScores : List ℚ) : AggResult :=
  if frameScores.length = 0 then
    { riskLevel := .LOW, riskScore := 0 }
  else
    let avgScore := frameScores.sum / frameScores.length
    let level : RiskLevel :=
      if avgScore < 20 then .LOW
      else if avgScore < 50 then .MEDIUM
      else if avgScore < 75 then .HIGH
      else .CRITICAL
    { riskLevel := level, riskScore := jsRound avgScore }

/-- The tier assignment of `aggregateVideoRisk` as a function of the
(unrounded) mean. -/
def tierOf (avg : ℚ) : RiskLevel :=
  if avg < 20 then .LOW
  else if avg < 50 then .MEDIUM
  else if avg < 75 then .HIGH
  else .CRITICAL

/-- Tier rank, used to state monotonicity of the bucketing. -/
def tierIdx : RiskLevel → ℕ
  | .LOW => 0
  | .MEDIUM => 1
  | .HIGH => 2
  | .CRITICAL => 3

/-- Mean of a list of scores, `0` for the empty list. -/
def meanOf (l : List ℚ) : ℚ := if l.length = 0 then 0 else l.sum / l.length

/-- `aggregateVideoRisk` in closed form: tier of the mean and rounded mean,
uniformly over empty and non-empty inputs. -/
lemma aggregateVideoRisk_eq (l : List ℚ) :
    aggregateVideoRisk l =
      { riskLevel := tierOf (meanOf l), riskScore := jsRound (meanOf l) } := by
  by_cases h : l.length = 0
  · simp only [aggregateVideoRisk, meanOf, tierOf, if_pos h]
    norm_num [jsRound]
  · simp only [aggregateVideoRisk, meanOf, tierOf, if_neg h]

lemma tierOf_mono {a b : ℚ} (h : a ≤ b) : tierIdx (tierOf a) ≤ tierIdx (tierOf b) := by
  unfold tierOf
  split_ifs <;> first | (simp [tierIdx]; done) | (exfalso; linarith)

lemma jsRound_mono {a b : ℚ} (h : a ≤ b) : jsRound a ≤ jsRound b :=
  Int.floor_le_floor (by linarith)

lemma lt_of_jsRound_lt {a b : ℚ} (h : jsRound a < jsRound b) : a < b := by
  by_contra hc
  push_neg at hc
  exact absurd (jsRound_mono hc) (not_le.mpr h)

/-! ## Claim C2 and claim C8: the aggregator contract -/

/-- C2: for every non-empty list `aggregateVideoRisk` returns
`round(mean)` with the tier determined by the mean (`LOW` below 20,
`MEDIUM` on `[20,50)`, `HIGH` on `[50,75)`, `CRITICAL` from 75 up); the
empty list returns `(LOW, 0)` without error; and the five concrete
examples of the spec evaluate as stated. -/
theorem aggregateVideoRisk_spec :
    (∀ scores : List ℚ, scores ≠ [] →
      (aggregateVideoRisk scores).riskScore = jsRound (scores.sum / scores.length) ∧
      (scores.sum / scores.length < 20 →
        (aggregateVideoRisk scores).riskLevel = .LOW) ∧
      (20 ≤ scores.sum / scores.length → scores.sum / scores.length < 50 →
        (aggregateVideoRisk scores).riskLevel = .MEDIUM) ∧
      (50 ≤ scores.sum / scores.length → scores.sum / scores.length < 75 →
        (aggregateVideoRisk scores).riskLevel = .HIGH) ∧
      (75 ≤ scores.sum / scores.length →
        (aggregateVideoRisk scores).riskLevel = .CRITICAL)) ∧
    aggregateVideoRisk [] = { riskLevel := .LOW, riskScore := 0 } ∧
    aggregateVideoRisk [10, 10, 10] = { riskLevel := .LOW, riskScore := 10 } ∧
    aggregateVideoRisk [30, 40] = { riskLevel := .MEDIUM, riskScore := 35 } ∧
    aggregateVideoRisk [60, 80] = { riskLevel := .HIGH, riskScore := 70 } ∧
    aggregateVideoRisk [90, 95] = { riskLevel := .CRITICAL, riskScore := 93 } := by
  refine ⟨?_, ?_, ?_, ?_, ?_, ?_⟩
  · intro scores hne
    have hlen : scores.length ≠ 0 := by simpa [List.length_eq_zero] using hne
    have hm : meanOf scores = scores.sum / scores.length := by
      unfold meanOf; rw [if_neg hlen]
    rw [aggregateVideoRisk_eq, hm]
    refine ⟨rfl, fun h => ?_, fun h1 h2 => ?_, fun h1 h2 => ?_, fun h1 => ?_⟩
    · show tierOf _ = RiskLevel.LOW
      unfold tierOf; rw [if_pos h]
    · show tierOf _ = RiskLevel.MEDIUM
      unfold tierOf; rw [if_neg (by linarith), if_pos h2]
    · show tierOf _ = RiskLevel.HIGH
      unfold tierOf; rw [if_neg (by linarith), if_neg (by linarith), if_pos h2]
    · show tierOf _ = RiskLevel.CRITICAL
      unfold tierOf;
      rw [if_neg (by linarith), if_neg (by linarith), if_neg (by linarith)]
  · rfl
  · norm_num [aggregateVideoRisk_eq, meanOf, tierOf, jsRound]
  · norm_num [aggregateVideoRisk_eq, meanOf, tierOf, jsRound]
  · norm_num [aggregateVideoRisk_eq, meanOf, tierOf, jsRound]
  · norm_num [aggregateVideoRisk_eq, meanOf, tierOf, jsRound]

/-- Witness for C2 applying the general clause at a concrete list. -/
theorem aggregateVideoRisk_spec_witness :
    (aggregateVideoRisk [30, 40]).riskScore
      = jsRound (([30, 40] : List ℚ).sum / ([30, 40] : List ℚ).length) :=
  (aggregateVideoRisk_spec.1 [30, 40] (List.cons_ne_nil _ _)).1

/-- C8: aggregation is deterministic (same input list, same output) and
order-independent (any permutation of the frame scores yields the same
`(riskLevel, riskScore)` pair). -/
theorem aggregateVideoRisk_perm_invariant :
    (∀ scores : List ℚ, aggregateVideoRisk scores = aggregateVideoRisk scores) ∧
    (∀ s1 s2 : List ℚ, List.Perm s1 s2 →
      aggregateVideoRisk s1 = aggregateVideoRisk s2) := by
  refine ⟨fun _ => rfl, fun s1 s2 hp => ?_⟩
  rw [aggregateVideoRisk_eq, aggregateVideoRisk_eq]
  unfold meanOf
  rw [hp.length_eq, hp.sum_eq]

/-- Witness for C8 at a concrete transposition. -/
theorem aggregateVideoRisk_perm_invariant_witness :
    aggregateVideoRisk [10, 30] = aggregateVideoRisk [30, 10] :=
  aggregateVideoRisk_perm_invariant.2 [10, 30] [30, 10] (List.Perm.swap 30 10 [])

/-! ## Violation summarizer (`riskLogic.ts` lines 133-201) -/

/-- Violation severity from `riskLogic.ts`. -/
inductive Severity
  | low
  | medium
  | high
deriving DecidableEq, Repr

/-- A violation record `{ type, count, severity }` from `riskLogic.ts`. -/
structure Violation where
  type : String
  count : ℤ
  severity : Severity
deriving DecidableEq, Repr

/-- `generateViolations` from `riskLogic.ts` lines 133-201.  The
sequential `violations.push(...)` calls are modelled by concatenating the
per-rule singleton lists in program order.  For an empty input JavaScript
computes `avgVehicles = avgPersons = NaN` (0/0); `NaN` fails the `> 8`
and `> 5` guards just as `0/0 = 0` does in `ℚ`, so the branching is
faithful for empty input as well. -/
def generateViolations (frameAnalyses : List FrameAnalysis) (avgScore : ℚ) :
    List Violation :=
  let totalOverlaps : ℕ := (frameAnalyses.map (fun f => f.overlaps)).sum
  let totalProximity : ℕ := (frameAnalyses.map (fun f => f.proximityRisks)).sum
  let avgVehicles : ℚ :=
    ((frameAnalyses.map (fun f => f.vehicleCount)).sum : ℚ) / frameAnalyses.length
  let avgPersons : ℚ :=
    ((frameAnalyses.map (fun f => f.personCount)).sum : ℚ) / frameAnalyses.length
  let v1 : List Violation :=
    if 0 < totalOverlaps then
      [{ type := "Vehicle Near-Collisions", count := (totalOverlaps : ℤ),
         severity := if 5 < totalOverlaps then .high
           else if 2 < totalOverlaps then .medium else .low }]
    else []
  let v2 : List Violation :=
    if 0 < totalProximity then
      [{ type := "Pedestrian Proximity Risks", count := (totalProximity : ℤ),
         severity := .high }]
    else []
  let v3 : List Violation :=
    if 8 < avgVehicles then
      [{ type := "High Traffic Congestion", count := jsRound avgVehicles,
         severity := if 15 < avgVehicles then .high else .medium }]
    else []
  let v4 : List Violation :=
    if 5 < avgPersons then
      [{ type := "Crowded Pedestrian Area", count := jsRound avgPersons,
         severity := if 10 < avgPersons then .high else .medium }]
    else []
  let highRiskFrames : ℕ :=
    (frameAnalyses.filter (fun f => decide (60 < f.score))).length
  let v5 : List Violation :=
    if 3 < highRiskFrames then
      [{ type := "High-Risk Frame Clusters", count := (highRiskFrames : ℤ),
         severity := .high }]
    else []
  let violations := v1 ++ v2 ++ v3 ++ v4 ++ v5
  if violations.length = 0 ∧ 10 < avgScore then
    violations ++
      [{ type := "General Traffic Activity", count := jsRound avgScore,
         severity := .low }]
  else violations

/-- Rule 1 of spec §4.4: total overlap incidents. -/
def specRule1 (fas : List FrameAnalysis) : Option Violation :=
  let total : ℕ := (fas.map (fun f => f.overlaps)).sum
  if 0 < total then
    some { type := "Vehicle Near-Collisions", count := (total : ℤ),
           severity := if 5 < total then .high
             else if 2 < total then .medium else .low }
  else none

/-- Rule 2 of spec §4.4: total proximity incidents. -/
def specRule2 (fas : List FrameAnalysis) : Option Violation :=
  let total : ℕ := (fas.map (fun f => f.proximityRisks)).sum
  if 0 < total then
    some { type := "Pedestrian Proximity Risks", count := (total : ℤ),
           severity := .high }
  else none

/-- Rule 3 of spec §4.4: mean vehicle count per frame. -/
def specRule3 (fas : List FrameAnalysis) : Option Violation :=
  let avg : ℚ := ((fas.map (fun f => f.vehicleCount)).sum : ℚ) / fas.length
  if 8 < avg then
    some { type := "High Traffic Congestion", count := jsRound avg,
           severity := if 15 < avg then .high else .medium }
  else none

/-- Rule 4 of spec §4.4: mean person count per frame. -/
def specRule4 (fas : List FrameAnalysis) : Option Violation :=
  let avg : ℚ := ((fas.map (fun f => f.personCount)).sum : ℚ) / fas.length
  if 5 < avg then
    some { type := "Crowded Pedestrian Area", count := jsRound avg,
           severity := if 10 < avg then .high else .medium }
  else none

/-- Rule 5 of spec §4.4: frames with score above 60. -/
def specRule5 (fas : List FrameAnalysis) : Option Violation :=
  let n : ℕ := (fas.filter (fun f => decide (60 < f.score))).length
  if 3 < n then
    some { type := "High-Risk Frame Clusters", count := (n : ℤ),
           severity := .high }
  else none

/-- The violation summarizer exactly as the specification words it
(spec §4.4): the five independent rules evaluated in the listed order,
then the single fallback entry exactly when no rule fired and the
aggregate score exceeds 10. -/
def generateViolationsSpec (fas : List FrameAnalysis) (avgScore : ℚ) :
    List Violation :=
  let fired := (specRule1 fas).toList ++ (specRule2 fas).toList ++
    (specRule3 fas).toList ++ (specRule4 fas).toList ++ (specRule5 fas).toList
  if fired = [] ∧ 10 < avgScore then
    [{ type := "General Traffic Activity", count := jsRound avgScore,
       severity := .low }]
  else fired

lemma toList_ite_some {α : Type} {c : Prop} [Decidable c] (x : α) :
    (if c then some x else none).toList = if c then [x] else [] := by
  split <;> rfl

/-- Appending the fallback entry to a list known to be empty is the same
as returning the fallback entry alone. -/
lemma ite_push_fallback {α : Type} (l : List α) (g : α) (c : Prop) [Decidable c]
    [Decidable (l = [])] :
    (if l.length = 0 ∧ c then l ++ [g] else l) = if l = [] ∧ c then [g] else l := by
  rcases eq_or_ne l [] with h | h
  · subst h; simp
  · rw [if_neg fun hc => h (List.length_eq_zero.mp hc.1), if_neg fun hc => h hc.1]

lemma generateViolations_eq_spec (fas : List FrameAnalysis) (avg : ℚ) :
    generateViolations fas avg = generateViolationsSpec fas avg := by
  simp only [generateViolations, generateViolationsSpec, specRule1, specRule2,
    specRule3, specRule4, specRule5, toList_ite_some]
  apply ite_push_fallback

/-! ## Claim C5 and claim C9: violation generation -/

/-- C5: for every non-empty frame-analysis list and aggregate score,
`generateViolations` returns exactly the violations of the six
independent rules of spec §4.4, concatenated in rule order
(`generateViolationsSpec`). -/
theorem generateViolations_matches_rules :
    ∀ (fas : List FrameAnalysis) (avgScore : ℚ), fas ≠ [] →
      generateViolations fas avgScore = generateViolationsSpec fas avgScore :=
  fun fas avg _ => generateViolations_eq_spec fas avg

/-- Witness for C5 at a concrete one-frame input. -/
theorem generateViolations_matches_rules_witness :
    generateViolations [⟨0, 26, [], 2, 0, 1, 0⟩] 26
      = generateViolationsSpec [⟨0, 26, [], 2, 0, 1, 0⟩] 26 :=
  generateViolations_matches_rules [⟨0, 26, [], 2, 0, 1, 0⟩] 26
    (List.cons_ne_nil _ _)

/-- C9: on the empty frame list (violating the documented precondition)
`generateViolations` still returns a defined value: no incident rule can
fire — the `ℚ` division `0/0 = 0` mirrors JavaScript `NaN` in failing the
`> 8` and `> 5` guards — and the result is the single
"General Traffic Activity" fallback entry when the aggregate score
exceeds 10, and empty otherwise. -/
theorem generateViolations_empty_input :
    ∀ avgScore : ℚ, generateViolations [] avgScore =
      if 10 < avgScore then
        [{ type := "General Traffic Activity", count := jsRound avgScore,
           severity := Severity.low }]
      else [] := by
  intro avg
  simp [generateViolations]
  norm_num

/-! ## Analysis orchestrator (`analyzeVideo` in `src/types/index.ts`)

The detection source (`simulateYoloDetection` composed with
`getScenarioForFrame`, from the absent `detection.ts`) is abstracted as an
opaque `det : ℕ → List Detection` giving the detections obtained at each
frame index; all orchestrator theorems hold for every such source.  The
`await`-delay and `console.log` calls have no effect on the modelled
values. -/

/-- The `frameStats` block of the orchestrator result. -/
structure FrameStats where
  totalFrames : ℕ
  processedFrames : ℕ
  avgVehicles : ℚ
  avgPersons : ℚ
  maxScore : ℚ
  minScore : ℚ
deriving DecidableEq, Repr

/-- `AnalysisResult` from `src/types/index.ts`. -/
structure AnalysisResult where
  riskLevel : RiskLevel
  riskScore : ℤ
  violations : List Violation
  frameStats : FrameStats
deriving DecidableEq, Repr

/-- The progress value emitted before processing frame `i`
(`src/types/index.ts` line 135):
`Math.min(95, Math.round((frameIndex / totalEstimatedFrames) * 100))`. -/
def progressAt (total i : ℕ) : ℤ := min 95 (jsRound ((i : ℚ) / total * 100))

/-- One processed frame: `computeFrameRisk` at the hardcoded simulated
dimensions, with `frameAnalysis.frameIndex = frameIndex` patched in
afterwards (`src/types/index.ts` lines 148-149). -/
def mkFrame (det : ℕ → List Detection) (i : ℕ) : FrameAnalysis :=
  { computeFrameRisk (det i) 1920 1080 with frameIndex := i }

/-- The frame loop of `analyzeVideo` (`src/types/index.ts` lines 130-156)
over the remaining frame indices: indices with
`frameIndex % frameSkip !== 0` are skipped; otherwise a progress value is
emitted, the frame is processed, and the loop breaks once `maxFrames`
frames have accumulated.  (For `frameSkip = 0` JavaScript evaluates
`i % 0` to `NaN`, skipping every index; that case only arises with
`totalEstimatedFrames = 0`, i.e. an empty index list, where the two
semantics agree.) -/
def analyzeLoop (det : ℕ → List Detection) (skip maxF total : ℕ) :
    List ℕ → List FrameAnalysis → List ℤ → List FrameAnalysis × List ℤ
  | [], fas, prog => (fas, prog)
  | i :: rest, fas, prog =>
    if i % skip ≠ 0 then
      analyzeLoop det skip maxF total rest fas prog
    else
      if maxF ≤ (fas ++ [mkFrame det i]).length then
        (fas ++ [mkFrame det i], prog ++ [progressAt total i])
      else
        analyzeLoop det skip maxF total rest (fas ++ [mkFrame det i])
          (prog ++ [progressAt total i])

/-- The frame analyses accumulated by a full run of the loop, starting
from frame index 0 over `maxFrames * frameSkip` synthetic frames. -/
def processedAnalyses (det : ℕ → List Detection) (maxFrames frameSkip : ℕ) :
    List FrameAnalysis :=
  (analyzeLoop det frameSkip maxFrames (maxFrames * frameSkip)
    (List.range (maxFrames * frameSkip)) [] []).1

/-- The loop-emitted progress values of a full run. -/
def loopProgress (det : ℕ → List Detection) (maxFrames frameSkip : ℕ) : List ℤ :=
  (analyzeLoop det frameSkip maxFrames (maxFrames * frameSkip)
    (List.range (maxFrames * frameSkip)) [] []).2

/-- `Math.max(...frameScores)` over a non-empty score list. -/
def listMax : List ℚ → ℚ
  | [] => 0
  | s :: rest => rest.foldl max s

/-- `Math.min(...frameScores)` over a non-empty score list. -/
def listMin : List ℚ → ℚ
  | [] => 0
  | s :: rest => rest.foldl min s

/-- `analyzeVideo` from `src/types/index.ts` lines 113-206, returning the
result record together with the complete list of values passed to the
progress callback (loop emissions followed by the final `onProgress(100)`). -/
def analyzeVideo (det : ℕ → List Detection) (maxFrames frameSkip : ℕ) :
    AnalysisResult × List ℤ :=
  let total := maxFrames * frameSkip
  let fas := processedAnalyses det maxFrames frameSkip
  let prog := loopProgress det maxFrames frameSkip ++ [100]
  if fas.length = 0 then
    ({ riskLevel := .LOW, riskScore := 0, violations := [],
       frameStats :=
         { totalFrames := 0, processedFrames := 0, avgVehicles := 0,
           avgPersons := 0, maxScore := 0, minScore := 0 } }, prog)
  else
    let frameScores := fas.map (fun f => f.score)
    let agg := aggregateVideoRisk frameScores
    let violations := generateViolations fas (agg.riskScore : ℚ)
    let avgVehicles : ℚ := ((fas.map (fun f => f.vehicleCount)).sum : ℚ) / fas.length
    let avgPersons : ℚ := ((fas.map (fun f => f.personCount)).sum : ℚ) / fas.length
    ({ riskLevel := agg.riskLevel, riskScore := agg.riskScore,
       violations := violations,
       frameStats :=
         { totalFrames := total, processedFrames := fas.length,
           avgVehicles := (jsRound (avgVehicles * 10) : ℚ) / 10,
           avgPersons := (jsRound (avgPersons * 10) : ℚ) / 10,
           maxScore := listMax frameScores, minScore := listMin frameScores } }, prog)

/-- The frame indices actually retained by a run: every `frameSkip`-th
index among the `maxFrames * frameSkip` synthetic frame indices. -/
def retainedIdx (maxFrames frameSkip : ℕ) : List ℕ :=
  (List.range (maxFrames * frameSkip)).filter (fun i => decide (i % frameSkip = 0))

/-- The loop, on any index list with enough capacity left, processes
exactly the indices divisible by `skip`, in order, emitting one progress
value per processed frame. -/
lemma analyzeLoop_spec (det : ℕ → List Detection) (skip maxF total : ℕ) :
    ∀ (idxs : List ℕ) (fas : List FrameAnalysis) (prog : List ℤ),
      fas.length + (idxs.filter (fun i => decide (i % skip = 0))).length ≤ maxF →
      analyzeLoop det skip maxF total idxs fas prog =
        (fas ++ (idxs.filter (fun i => decide (i % skip = 0))).map (mkFrame det),
         prog ++ (idxs.filter (fun i => decide (i % skip = 0))).map (progressAt total)) := by
  intro idxs
  induction idxs with
  | nil => intro fas prog _; simp [analyzeLoop]
  | cons i rest ih =>
    intro fas prog h
    by_cases hmod : i % skip = 0
    · have hpt : decide (i % skip = 0) = true := by simpa using hmod
      rw [List.filter_cons_of_pos (p := fun i => decide (i % skip = 0)) hpt] at h ⊢
      simp only [analyzeLoop]
      rw [if_neg (not_not_intro hmod)]
      by_cases hbreak : maxF ≤ (fas ++ [mkFrame det i]).length
      · rw [if_pos hbreak]
        have hnil : rest.filter (fun i => decide (i % skip = 0)) = [] := by
          apply List.length_eq_zero.mp
          simp only [List.length_cons] at h
          simp only [List.length_append, List.length_singleton, List.length_nil] at hbreak
          omega
        rw [hnil]
        simp
      · rw [if_neg hbreak]
        rw [ih (fas ++ [mkFrame det i]) (prog ++ [progressAt total i])
          (by simp only [List.length_append, List.length_singleton, List.length_nil,
                List.length_cons] at h ⊢; omega)]
        simp
    · have hpf : ¬ decide (i % skip = 0) = true := by simpa using hmod
      rw [List.filter_cons_of_neg (p := fun i => decide (i % skip = 0)) hpf] at h ⊢
      simp only [analyzeLoop]
      rw [if_pos hmod]
      exact ih fas prog h

/-- Among the `m * s` synthetic frame indices exactly `m` are retained
(`s > 0`): the multiples `0, s, ..., (m-1)*s` of the stride. -/
lemma length_filter_mod_range (s : ℕ) (hs : 0 < s) (m : ℕ) :
    ((List.range (m * s)).filter (fun i => decide (i % s = 0))).length = m := by
  induction m with
  | zero => simp
  | succ m ih =>
    rw [Nat.succ_mul, List.range_add, List.filter_append, List.length_append, ih]
    have hchunk : ((List.range s).map (fun j => m * s + j)).filter
        (fun i => decide (i % s = 0)) = [m * s] := by
      obtain ⟨t, rfl⟩ : ∃ t, s = t + 1 := ⟨s - 1, by omega⟩
      rw [List.range_succ_eq_map, List.map_cons, List.map_map]
      rw [List.filter_cons_of_pos (by simp [Nat.mul_mod_left])]
      have htail : ((List.range t).map ((fun j => m * (t + 1) + j) ∘ Nat.succ)).filter
          (fun i => decide (i % (t + 1) = 0)) = [] := by
        apply List.filter_eq_nil_iff.mpr
        intro a ha
        obtain ⟨j, hj, rfl⟩ := List.mem_map.mp ha
        have hlt : j + 1 < t + 1 := by simpa using List.mem_range.mp hj
        have hmod : (m * (t + 1) + Nat.succ j) % (t + 1) = j + 1 := by
          rw [Nat.succ_eq_add_one, add_comm (m * (t + 1)) (j + 1),
            Nat.add_mul_mod_self_right]
          exact Nat.mod_eq_of_lt hlt
        simp [hmod]
      rw [htail]
      simp
    rw [hchunk]
    simp

lemma processedAnalyses_eq (det : ℕ → List Detection) (m s : ℕ) :
    processedAnalyses det m s = (retainedIdx m s).map (mkFrame det) := by
  unfold processedAnalyses retainedIdx
  rcases Nat.eq_zero_or_pos s with hs | hs
  · subst hs
    simp [analyzeLoop]
  · rw [analyzeLoop_spec det s m (m * s) (List.range (m * s)) [] []
      (by rw [length_filter_mod_range s hs m]; simp)]
    simp

lemma loopProgress_eq (det : ℕ → List Detection) (m s : ℕ) :
    loopProgress det m s = (retainedIdx m s).map (progressAt (m * s)) := by
  unfold loopProgress retainedIdx
  rcases Nat.eq_zero_or_pos s with hs | hs
  · subst hs
    simp [analyzeLoop]
  · rw [analyzeLoop_spec det s m (m * s) (List.range (m * s)) [] []
      (by rw [length_filter_mod_range s hs m]; simp)]
    simp

/-- The progress component of `analyzeVideo`: the loop emissions followed
by the final `onProgress(100)`, on both the degenerate and the normal
path. -/
lemma analyzeVideo_progress (det : ℕ → List Detection) (m s : ℕ) :
    (analyzeVideo det m s).2 = loopProgress det m s ++ [100] := by
  unfold analyzeVideo
  by_cases h : (processedAnalyses det m s).length = 0 <;> simp [h]

lemma progressAt_nonneg (total i : ℕ) : 0 ≤ progressAt total i := by
  unfold progressAt
  refine le_min (by norm_num) (Int.le_floor.mpr ?_)
  push_cast
  positivity

lemma progressAt_le_95 (total i : ℕ) : progressAt total i ≤ 95 := min_le_left _ _

lemma progressAt_mono (total : ℕ) {i j : ℕ} (h : i ≤ j) :
    progressAt total i ≤ progressAt total j := by
  unfold progressAt
  apply min_le_min (le_refl 95)
  apply jsRound_mono
  rcases Nat.eq_zero_or_pos total with h0 | h0
  · subst h0
    norm_num
  · have hij : (i : ℚ) ≤ j := by exact_mod_cast h
    have ht : (0 : ℚ) < total := by exact_mod_cast h0
    apply mul_le_mul_of_nonneg_right _ (by norm_num : (0:ℚ) ≤ 100)
    exact (div_le_div_iff_of_pos_right ht).mpr hij

/-! ## Claim C6 and claim C7: orchestrator progress and degenerate runs -/

/-- C6: over any run of `analyzeVideo` the progress-callback sequence
consists of exactly one value
`min(95, round(frameIndex / totalEstimatedFrames × 100))` per retained
frame, in frame order, followed by the final invocation with `100`; the
full sequence is non-decreasing, every value lies in the integer range
`[0, 100]`, and the final invocation always carries `100`. -/
theorem analyzeVideo_progress_spec :
    ∀ (det : ℕ → List Detection) (maxFrames frameSkip : ℕ),
      (analyzeVideo det maxFrames frameSkip).2 =
        (retainedIdx maxFrames frameSkip).map
          (progressAt (maxFrames * frameSkip)) ++ [100] ∧
      List.Pairwise (· ≤ ·) (analyzeVideo det maxFrames frameSkip).2 ∧
      (∀ p ∈ (analyzeVideo det maxFrames frameSkip).2, 0 ≤ p ∧ p ≤ 100) ∧
      (analyzeVideo det maxFrames frameSkip).2.getLast? = some 100 := by
  intro det m s
  have hp : (analyzeVideo det m s).2
      = (retainedIdx m s).map (progressAt (m * s)) ++ [100] := by
    rw [analyzeVideo_progress, loopProgress_eq]
  refine ⟨hp, ?_, ?_, ?_⟩
  · rw [hp, List.pairwise_append]
    refine ⟨?_, List.pairwise_singleton _ _, ?_⟩
    · have hpw : (retainedIdx m s).Pairwise (· < ·) :=
        List.Pairwise.sublist (List.filter_sublist _) (List.pairwise_lt_range _)
      exact hpw.map _ (fun a b hab => progressAt_mono _ hab.le)
    · intro x hx y hy
      obtain ⟨i, _, rfl⟩ := List.mem_map.mp hx
      have hy100 : y = 100 := by simpa using hy
      subst hy100
      exact le_trans (progressAt_le_95 _ _) (by norm_num)
  · intro p hmem
    rw [hp] at hmem
    rcases List.mem_append.mp hmem with hmem | hmem
    · obtain ⟨i, _, rfl⟩ := List.mem_map.mp hmem
      exact ⟨progressAt_nonneg _ _, le_trans (progressAt_le_95 _ _) (by norm_num)⟩
    · have hp100 : p = 100 := by simpa using hmem
      subst hp100
      norm_num
  · rw [hp]
    exact List.getLast?_concat _

/-- Witness for C6 at a concrete run. -/
theorem analyzeVideo_progress_spec_witness :
    (analyzeVideo (fun _ => []) 2 1).2.getLast? = some 100 ∧
    (0 ≤ (100 : ℤ) ∧ (100 : ℤ) ≤ 100) := by
  have h := analyzeVideo_progress_spec (fun _ => []) 2 1
  refine ⟨h.2.2.2, h.2.2.1 100 ?_⟩
  rw [h.1]
  simp

/-- C7: a run of `analyzeVideo` that processes zero frames — in
particular any run configured with frame cap 0 — returns the defined
degenerate result (`LOW`, score 0, empty violation list, all frame
statistics 0) rather than an error, and the progress callback is still
invoked with the value 100 (as the final invocation). -/
theorem analyzeVideo_zero_frames :
    ∀ (det : ℕ → List Detection) (maxFrames frameSkip : ℕ),
      (maxFrames = 0 → processedAnalyses det maxFrames frameSkip = []) ∧
      (processedAnalyses det maxFrames frameSkip = [] →
        (analyzeVideo det maxFrames frameSkip).1 =
          { riskLevel := .LOW, riskScore := 0, violations := [],
            frameStats :=
              { totalFrames := 0, processedFrames := 0, avgVehicles := 0,
                avgPersons := 0, maxScore := 0, minScore := 0 } } ∧
        (100 : ℤ) ∈ (analyzeVideo det maxFrames frameSkip).2 ∧
        (analyzeVideo det maxFrames frameSkip).2.getLast? = some 100) := by
  intro det m s
  constructor
  · intro hm
    subst hm
    unfold processedAnalyses
    simp [analyzeLoop]
  · intro hempty
    have h0 : (processedAnalyses det m s).length = 0 := by rw [hempty]; rfl
    refine ⟨?_, ?_, ?_⟩
    · simp [analyzeVideo, h0]
    · rw [analyzeVideo_progress]
      simp
    · rw [analyzeVideo_progress]
      exact List.getLast?_concat _

/-- Witness for C7: the frame-cap-0 run hits the degenerate result. -/
theorem analyzeVideo_zero_frames_witness :
    processedAnalyses (fun _ => []) 0 3 = [] ∧
    (analyzeVideo (fun _ => []) 0 3).1 =
      { riskLevel := .LOW, riskScore := 0, violations := [],
        frameStats :=
          { totalFrames := 0, processedFrames := 0, avgVehicles := 0,
            avgPersons := 0, maxScore := 0, minScore := 0 } } := by
  have h := analyzeVideo_zero_frames (fun _ => []) 0 3
  have h0 := h.1 rfl
  exact ⟨h0, (h.2 h0).1⟩

/-! ## Claim C3: riskScore / riskLevel invariants of completed results -/

/-- Both result fields of `analyzeVideo` in terms of the mean of the
processed frame scores: the score is the rounded mean, the level is the
tier of the unrounded mean (`meanOf [] = 0` covers the degenerate path). -/
lemma analyzeVideo_agg (det : ℕ → List Detection) (m s : ℕ) :
    (analyzeVideo det m s).1.riskScore
        = jsRound (meanOf ((processedAnalyses det m s).map (fun f => f.score))) ∧
    (analyzeVideo det m s).1.riskLevel
        = tierOf (meanOf ((processedAnalyses det m s).map (fun f => f.score))) := by
  by_cases h : (processedAnalyses det m s).length = 0
  · have hnil : processedAnalyses det m s = [] := List.length_eq_zero.mp h
    have hmean : meanOf ((processedAnalyses det m s).map (fun f => f.score)) = 0 := by
      rw [hnil]; rfl
    rw [hmean]
    constructor
    · rw [show jsRound 0 = 0 by norm_num [jsRound]]
      simp [analyzeVideo, h]
    · rw [show tierOf 0 = RiskLevel.LOW by norm_num [tierOf]]
      simp [analyzeVideo, h]
  · have hlen : ((processedAnalyses det m s).map (fun f => f.score)).length ≠ 0 := by
      simpa using h
    have hm : meanOf ((processedAnalyses det m s).map (fun f => f.score))
        = ((processedAnalyses det m s).map (fun f => f.score)).sum /
          ((processedAnalyses det m s).map (fun f => f.score)).length := by
      unfold meanOf
      rw [if_neg hlen]
    refine ⟨?_, ?_⟩ <;>
      simp only [analyzeVideo, if_neg h, aggregateVideoRisk_eq, hm]

/-- A frame whose detections are three mutually disjoint cars plus two
persons in the upper half of the frame: frame score `3*3 + 5*2 = 19`. -/
def det19 : List Detection :=
  [⟨"car", 9 / 10, ⟨0, 0, 10, 10⟩, 2, (5, 5)⟩,
   ⟨"car", 9 / 10, ⟨20, 0, 30, 10⟩, 2, (25, 5)⟩,
   ⟨"car", 9 / 10, ⟨40, 0, 50, 10⟩, 2, (45, 5)⟩,
   ⟨"person", 9 / 10, ⟨100, 0, 110, 10⟩, 0, (105, 5)⟩,
   ⟨"person", 9 / 10, ⟨120, 0, 130, 10⟩, 0, (125, 5)⟩]

/-- A frame whose detections are four persons in the upper half of the
frame: frame score `5*4 = 20`. -/
def det20 : List Detection :=
  [⟨"person", 9 / 10, ⟨0, 0, 10, 10⟩, 0, (5, 5)⟩,
   ⟨"person", 9 / 10, ⟨20, 0, 30, 10⟩, 0, (25, 5)⟩,
   ⟨"person", 9 / 10, ⟨40, 0, 50, 10⟩, 0, (45, 5)⟩,
   ⟨"person", 9 / 10, ⟨60, 0, 70, 10⟩, 0, (65, 5)⟩]

/-- A detection source producing `det19` at frame 0 and `det20` after. -/
def detSrcA : ℕ → List Detection := fun i => if i = 0 then det19 else det20

/-- A detection source producing `det20` at every frame. -/
def detSrcB : ℕ → List Detection := fun _ => det20

lemma computeFrameRisk_det19 :
    computeFrameRisk det19 1920 1080 = ⟨0, 19, det19, 3, 2, 0, 0⟩ := by
  simp [computeFrameRisk, det19, VEHICLE_CLASSES, countOverlapPairs,
    countProximity, proxCheck, getCenter, distSq, sqrtLt, List.countP_cons]
  norm_num [iou, interArea_def, boxArea, min_def, max_def]

lemma computeFrameRisk_det20 :
    computeFrameRisk det20 1920 1080 = ⟨0, 20, det20, 0, 4, 0, 0⟩ := by
  simp [computeFrameRisk, det20, VEHICLE_CLASSES, countOverlapPairs,
    countProximity, proxCheck, getCenter, distSq, sqrtLt, List.countP_cons]
  norm_num [iou, interArea_def, boxArea, min_def, max_def]

lemma processedAnalyses_detSrcA :
    processedAnalyses detSrcA 2 1 = [⟨0, 19, det19, 3, 2, 0, 0⟩, ⟨1, 20, det20, 0, 4, 0, 0⟩] := by
  rw [processedAnalyses_eq]
  have hr : retainedIdx 2 1 = [0, 1] := rfl
  rw [hr]
  simp only [List.map_cons, List.map_nil, mkFrame, detSrcA]
  norm_num [computeFrameRisk_det19, computeFrameRisk_det20]

lemma processedAnalyses_detSrcB :
    processedAnalyses detSrcB 1 1 = [⟨0, 20, det20, 0, 4, 0, 0⟩] := by
  rw [processedAnalyses_eq]
  have hr : retainedIdx 1 1 = [0] := rfl
  rw [hr]
  simp only [List.map_cons, List.map_nil, mkFrame, detSrcB]
  norm_num [computeFrameRisk_det20]

/-- C3 counterexample: two completed runs whose riskScores are both 20
while their riskLevels differ (`LOW` from mean 19.5, `MEDIUM` from mean
20) — so riskLevel is not a function of riskScore. -/
theorem riskLevel_not_function_of_riskScore :
    (analyzeVideo detSrcA 2 1).1.riskScore = 20 ∧
    (analyzeVideo detSrcB 1 1).1.riskScore = 20 ∧
    (analyzeVideo detSrcA 2 1).1.riskLevel = RiskLevel.LOW ∧
    (analyzeVideo detSrcB 1 1).1.riskLevel = RiskLevel.MEDIUM ∧
    (analyzeVideo detSrcA 2 1).1.riskLevel ≠ (analyzeVideo detSrcB 1 1).1.riskLevel := by
  have hA := analyzeVideo_agg detSrcA 2 1
  have hB := analyzeVideo_agg detSrcB 1 1
  rw [processedAnalyses_detSrcA] at hA
  rw [processedAnalyses_detSrcB] at hB
  have hmA : meanOf (([⟨0, 19, det19, 3, 2, 0, 0⟩,
      ⟨1, 20, det20, 0, 4, 0, 0⟩] : List FrameAnalysis).map (fun f => f.score))
      = 39 / 2 := by
    norm_num [meanOf]
  have hmB : meanOf (([⟨0, 20, det20, 0, 4, 0, 0⟩] : List FrameAnalysis).map
      (fun f => f.score)) = 20 := by
    norm_num [meanOf]
  rw [hmA] at hA
  rw [hmB] at hB
  have e1 : jsRound (39 / 2) = 20 := by norm_num [jsRound]
  have e2 : jsRound 20 = 20 := by norm_num [jsRound]
  have e3 : tierOf (39 / 2) = RiskLevel.LOW := by norm_num [tierOf]
  have e4 : tierOf 20 = RiskLevel.MEDIUM := by norm_num [tierOf]
  refine ⟨hA.1.trans e1, hB.1.trans e2, hA.2.trans e3, hB.2.trans e4, ?_⟩
  rw [hA.2.trans e3, hB.2.trans e4]
  exact fun hc => RiskLevel.noConfusion hc

/-- C3 (amended): for every completed analysis result, riskScore equals
`round(mean of the processed frame scores)` (0 when no frame was
processed); riskLevel is the pure, monotone, non-overlapping tier
partition applied to the *unrounded* mean rather than to riskScore; and
consequently a result with strictly higher riskScore never has a lower
tier.  (Two results with equal riskScore may still differ in riskLevel
when their means straddle a tier boundary, which is the only part of the
original claim that fails.) -/
theorem riskScore_round_mean_tier_monotone :
    (∀ (det : ℕ → List Detection) (m s : ℕ),
      (analyzeVideo det m s).1.riskScore
          = jsRound (meanOf ((processedAnalyses det m s).map (fun f => f.score))) ∧
      (analyzeVideo det m s).1.riskLevel
          = tierOf (meanOf ((processedAnalyses det m s).map (fun f => f.score))) ∧
      (processedAnalyses det m s = [] → (analyzeVideo det m s).1.riskScore = 0)) ∧
    (∀ (det1 : ℕ → List Detection) (m1 s1 : ℕ)
        (det2 : ℕ → List Detection) (m2 s2 : ℕ),
      (analyzeVideo det1 m1 s1).1.riskScore < (analyzeVideo det2 m2 s2).1.riskScore →
      tierIdx (analyzeVideo det1 m1 s1).1.riskLevel
        ≤ tierIdx (analyzeVideo det2 m2 s2).1.riskLevel) := by
  constructor
  · intro det m s
    refine ⟨(analyzeVideo_agg det m s).1, (analyzeVideo_agg det m s).2, fun hnil => ?_⟩
    rw [(analyzeVideo_agg det m s).1, hnil]
    norm_num [meanOf, jsRound]
  · intro det1 m1 s1 det2 m2 s2 hlt
    rw [(analyzeVideo_agg det1 m1 s1).1, (analyzeVideo_agg det2 m2 s2).1] at hlt
    rw [(analyzeVideo_agg det1 m1 s1).2, (analyzeVideo_agg det2 m2 s2).2]
    exact tierOf_mono (lt_of_jsRound_lt hlt).le

/-- Witness for C3 (amended) at two concrete runs with strictly ordered
riskScores. -/
theorem riskScore_round_mean_tier_monotone_witness :
    tierIdx (analyzeVideo (fun _ => []) 0 1).1.riskLevel
      ≤ tierIdx (analyzeVideo detSrcB 1 1).1.riskLevel := by
  apply riskScore_round_mean_tier_monotone.2 (fun _ => []) 0 1 detSrcB 1 1
  have h1 : (analyzeVideo (fun _ => ([] : List Detection)) 0 1).1.riskScore = 0 := by
    simp [analyzeVideo, processedAnalyses, analyzeLoop]
  have h2 := analyzeVideo_agg detSrcB 1 1
  rw [processedAnalyses_detSrcB] at h2
  have hmB : meanOf (([⟨0, 20, det20, 0, 4, 0, 0⟩] : List FrameAnalysis).map
      (fun f => f.score)) = 20 := by
    norm_num [meanOf]
  rw [h1, h2.1, hmB]
  norm_num [jsRound]

end SafeSight
